import Mathlib

/-!
Verification of the decode-and-deliver pipeline of the pdf-previewer
repository.  The source is a set of near-duplicate React components;
the core logic embedded here is:

* the data-URI header stripping rule shared by every copy,
* the Base64 format validation regex test with pattern
  caret [A-Za-z0-9+/] star equals zero-to-two dollar,
* the browser atob primitive (WHATWG forgiving-base64 decode),
* the two binary-string-to-byte conversions (index loop with
  charCodeAt versus Uint8Array.from),
* the Blob construction and the empty-blob check,
* the event traces of the three delivery handlers (direct new tab,
  the components copy, and the proxy-tab variant).

Machine integers are modelled as Nat with explicit mod 256 where the
Uint8Array assignment truncates; JS strings are lists of Char whose
codes are the UTF-16 units (all strings handled here are in the BMP).
-/

/-- ASCII whitespace per the WHATWG infra spec: TAB, LF, FF, CR, SPACE.
This is the set removed by forgiving-base64 decode. -/
def isAsciiWhitespace (c : Char) : Bool :=
  c.toNat = 9 || c.toNat = 10 || c.toNat = 12 || c.toNat = 13 || c.toNat = 32

/-- Whitespace removed by the JS String trim method: ASCII whitespace
plus VT, NBSP, BOM and the Unicode line and paragraph separators. -/
def isJsWhitespace (c : Char) : Bool :=
  c.toNat = 9 || c.toNat = 10 || c.toNat = 11 || c.toNat = 12 || c.toNat = 13 ||
  c.toNat = 32 || c.toNat = 160 || c.toNat = 65279 || c.toNat = 8232 || c.toNat = 8233

/-- Model of the JS String trim method: drop whitespace from both ends. -/
def jsTrim (s : List Char) : List Char :=
  ((s.dropWhile isJsWhitespace).reverse.dropWhile isJsWhitespace).reverse

/-- Value of a character in the standard Base64 alphabet
A-Z, a-z, 0-9, plus, slash; none for anything else. -/
def base64Value (c : Char) : Option Nat :=
  let n := c.toNat
  if 65 ≤ n ∧ n ≤ 90 then some (n - 65)
  else if 97 ≤ n ∧ n ≤ 122 then some (n - 71)
  else if 48 ≤ n ∧ n ≤ 57 then some (n + 4)
  else if n = 43 then some 62
  else if n = 47 then some 63
  else none

/-- Character of a sextet value in the standard Base64 alphabet. -/
def base64Char (v : Nat) : Char :=
  if v < 26 then Char.ofNat (65 + v)
  else if v < 52 then Char.ofNat (97 + v - 26)
  else if v < 62 then Char.ofNat (48 + v - 52)
  else if v = 62 then '+'
  else '/'

/-- Model of the JS String startsWith method: second argument is the
candidate leading segment. -/
def strStartsWith : List Char → List Char → Bool
  | _, [] => true
  | [], _ :: _ => false
  | a :: s, b :: p => a = b && strStartsWith s p

/-- Model of the JS String indexOf method for a single character,
returning the first index or none (JS returns -1). -/
def indexOfChar (c : Char) : List Char → Option Nat
  | [] => none
  | a :: rest => if a = c then some 0 else (indexOfChar c rest).map (· + 1)

/-- The exact data-URI header the source strips first:
data:application/pdf;base64, -/
def headerLong : List Char := "data:application/pdf;base64,".toList

/-- The generic data-URI scheme tag checked second: data: -/
def headerShort : List Char := "data:".toList

/-- The header stripping rule, translated from the shared block of
every component copy: strip the exact application/pdf header, else
for any other data: input strip through the first comma, else leave
the input unchanged. -/
def stripDataUriHeader (base64Data : List Char) : List Char :=
  if strStartsWith base64Data headerLong then
    base64Data.drop headerLong.length
  else if strStartsWith base64Data headerShort then
    match indexOfChar ',' base64Data with
    | some i => base64Data.drop (i + 1)
    | none => base64Data
  else base64Data

/-- The validation regex test from the source.  The pattern anchors the
whole string as a run of alphabet characters followed by zero to two
equals signs; since equals is not in the character class, the greedy
star consumes exactly the maximal alphabet run, so the test succeeds
iff what follows that run is empty, one pad, or two pads. -/
def validBase64Format (s : List Char) : Bool :=
  let rest := s.dropWhile (fun c => (base64Value c).isSome)
  rest == [] || rest == ['='] || rest == ['=', '=']

/-- Step of forgiving-base64 decode that removes one or two trailing
pad characters, acting on the reversed string: two leading pads are
removed, else one leading pad, else nothing. -/
def dropPadRev : List Char → List Char
  | c1 :: c2 :: rest =>
    if c1 = '=' then (if c2 = '=' then rest else c2 :: rest) else c1 :: c2 :: rest
  | [c1] => if c1 = '=' then [] else [c1]
  | [] => []

/-- Remove one or two trailing pad characters (no more), as the
forgiving-base64 spec directs when the length is a multiple of four. -/
def dropPadChars (s : List Char) : List Char :=
  (dropPadRev s.reverse).reverse

/-- Map every character to its Base64 sextet value; fail on the first
character outside the alphabet. -/
def mapBase64Values : List Char → Option (List Nat)
  | [] => some []
  | c :: rest =>
    match base64Value c, mapBase64Values rest with
    | some v, some vs => some (v :: vs)
    | _, _ => none

/-- Reassemble bytes from sextet values: each full group of four
sextets gives three bytes; a final group of two gives one byte and a
final group of three gives two, the spare low bits being discarded. -/
def sextetsToBytes : List Nat → List Nat
  | a :: b :: c :: d :: rest =>
    (a * 4 + b / 16) :: ((b % 16) * 16 + c / 4) :: ((c % 4) * 64 + d) ::
      sextetsToBytes rest
  | [a, b] => [a * 4 + b / 16]
  | [a, b, c] => [a * 4 + b / 16, (b % 16) * 16 + c / 4]
  | _ => []

/-- Model of the browser atob primitive: WHATWG forgiving-base64
decode.  Remove ASCII whitespace; if the length is a multiple of four
remove up to two trailing pads; fail when the remaining length is 1
mod 4 or when any character is outside the alphabet; otherwise return
the binary string whose character codes are the decoded bytes. -/
def atob (s : List Char) : Option (List Char) :=
  let d0 := s.filter (fun c => !(isAsciiWhitespace c))
  let d1 := if d0.length % 4 = 0 then dropPadChars d0 else d0
  if d1.length % 4 = 1 then none
  else
    match mapBase64Values d1 with
    | none => none
    | some vals => some ((sextetsToBytes vals).map Char.ofNat)

/-- Model of the JS String charCodeAt method (indices in range here). -/
def charCodeAt (s : List Char) (i : Nat) : Nat :=
  ((s.get? i).map Char.toNat).getD 0

/-- Byte conversion of the components and same-tab copies: allocate a
Uint8Array of the string length and fill it with charCodeAt in an
index loop.  The Uint8Array store truncates mod 256. -/
def bytesViaLoop (s : List Char) : List Nat :=
  (List.range s.length).map (fun i => charCodeAt s i % 256)

/-- Byte conversion of the convertBase64ToPdfBlob copies:
Uint8Array.from over the string with a charCodeAt mapper. -/
def bytesViaFrom (s : List Char) : List Nat :=
  s.map (fun c => c.toNat % 256)

/-- A Blob as the source builds it: the byte content and a MIME tag. -/
structure Blob where
  data : List Nat
  mime : String
deriving DecidableEq

/-- MIME type every copy tags the decoded document with. -/
def pdfMime : String := "application/pdf"

/-- Error outcomes of the decode pipeline.  invalidEncoding is the
explicit throw after the regex test; emptyDocument the explicit throw
on a zero-size blob; invalidCharacter the native exception raised by
atob itself, which no copy throws explicitly. -/
inductive DecodeError
  | invalidEncoding
  | invalidCharacter
  | emptyDocument
deriving DecidableEq

deriving instance DecidableEq for Except

/-- The decode stages that follow header stripping: regex validation,
atob, byte conversion via Uint8Array.from, Blob construction and the
empty check.  Matches the tail of convertBase64ToPdfBlob. -/
def decodePayload (t : List Char) : Except DecodeError Blob :=
  if validBase64Format t = false then .error .invalidEncoding
  else
    match atob t with
    | none => .error .invalidCharacter
    | some bin =>
      let blob : Blob := ⟨bytesViaFrom bin, pdfMime⟩
      if blob.data.length = 0 then .error .emptyDocument
      else .ok blob

/-- Translation of convertBase64ToPdfBlob from App.jsx and part_001:
strip the data-URI header, test the regex, atob, convert with
Uint8Array.from, build the Blob and reject a zero-size one. -/
def convertBase64ToPdfBlob (base64Data : List Char) : Except DecodeError Blob :=
  let t :=
    if strStartsWith base64Data headerLong then
      base64Data.drop headerLong.length
    else if strStartsWith base64Data headerShort then
      match indexOfChar ',' base64Data with
      | some i => base64Data.drop (i + 1)
      | none => base64Data
    else base64Data
  if validBase64Format t = false then .error .invalidEncoding
  else
    match atob t with
    | none => .error .invalidCharacter
    | some bin =>
      let blob : Blob := ⟨bytesViaFrom bin, pdfMime⟩
      if blob.data.length = 0 then .error .emptyDocument
      else .ok blob

/-- Translation of the inline decode block of the components copy and
the same-tab copy: identical pipeline except that the byte conversion
is the charCodeAt index loop. -/
def decodePipelineLoop (base64Data : List Char) : Except DecodeError Blob :=
  let t :=
    if strStartsWith base64Data headerLong then
      base64Data.drop headerLong.length
    else if strStartsWith base64Data headerShort then
      match indexOfChar ',' base64Data with
      | some i => base64Data.drop (i + 1)
      | none => base64Data
    else base64Data
  if validBase64Format t = false then .error .invalidEncoding
  else
    match atob t with
    | none => .error .invalidCharacter
    | some bin =>
      let blob : Blob := ⟨bytesViaLoop bin, pdfMime⟩
      if blob.data.length = 0 then .error .emptyDocument
      else .ok blob

/-- Standard Base64 encoding of a byte list: each group of three bytes
becomes four alphabet characters; a final group of two becomes three
characters and one pad; a final single byte becomes two characters and
two pads. -/
def base64Encode : List Nat → List Char
  | a :: b :: c :: rest =>
    base64Char (a / 4) :: base64Char ((a % 4) * 16 + b / 16) ::
      base64Char ((b % 16) * 4 + c / 64) :: base64Char (c % 64) ::
      base64Encode rest
  | [a, b] =>
    [base64Char (a / 4), base64Char ((a % 4) * 16 + b / 16),
      base64Char ((b % 16) * 4), '=']
  | [a] => [base64Char (a / 4), base64Char ((a % 4) * 16), '=', '=']
  | [] => []

/-- The sextet values of the Base64 encoding of a byte list, without
the alphabet mapping and without padding. -/
def bytesToSextets : List Nat → List Nat
  | a :: b :: c :: rest =>
    a / 4 :: ((a % 4) * 16 + b / 16) :: ((b % 16) * 4 + c / 64) :: c % 64 ::
      bytesToSextets rest
  | [a, b] => [a / 4, (a % 4) * 16 + b / 16, (b % 16) * 4]
  | [a] => [a / 4, (a % 4) * 16]
  | [] => []

/-- The pad characters the Base64 encoding of a byte list ends with. -/
def padOf : List Nat → List Char
  | _ :: _ :: _ :: rest => padOf rest
  | [_, _] => ['=']
  | [_] => ['=', '=']
  | [] => []

/-- Error kinds a handler surfaces through its blocking alert. -/
inductive ErrKind
  | emptyInput
  | decodeFailed (e : DecodeError)
  | fetchFailed
  | surfaceUnavailable
deriving DecidableEq

/-- Observable side effects of one handler invocation, in temporal
order; timer callbacks appear at the point they fire.  openTab records
whether the environment actually created the context; createUrl and
revoke carry the handle index of the invocation; revoke carries the
scheduled delay in milliseconds. -/
inductive Ev
  | alertError (e : ErrKind)
  | openTab (created : Bool)
  | writeLoading
  | createUrl (id : Nat)
  | navigateTab (id : Nat)
  | closeTab
  | revoke (id : Nat) (delayMs : Nat)
deriving DecidableEq

/-- Recognize a revoke event. -/
def isRevokeEv : Ev → Bool
  | .revoke _ _ => true
  | _ => false

/-- Recognize an alert event. -/
def isAlertEv : Ev → Bool
  | .alertError _ => true
  | _ => false

/-- Recognize a handle creation event. -/
def isCreateUrlEv : Ev → Bool
  | .createUrl _ => true
  | _ => false

/-- Event trace of handlePreviewReport in the components copy: reject
untrimmed-empty input with an alert; run the inline loop pipeline on
the trimmed input; on error alert; on success create the blob URL and
open a tab pointed at it, with no cleanup ever scheduled. -/
def componentsHandler (input : List Char) (popupAllowed : Bool) : List Ev :=
  if jsTrim input = [] then [.alertError .emptyInput]
  else
    match decodePipelineLoop (jsTrim input) with
    | .error e => [.alertError (.decodeFailed e)]
    | .ok _ => [.createUrl 0, .openTab popupAllowed]

/-- Event trace of the direct-new-tab variant of part_001: decode via
convertBase64ToPdfBlob, then openPdfInNewTab creates the blob URL,
opens a tab at it without checking the result, and schedules a single
revocation of that URL 2000 ms later. -/
def variantAHandler (input : List Char) (popupAllowed : Bool) : List Ev :=
  if jsTrim input = [] then [.alertError .emptyInput]
  else
    match convertBase64ToPdfBlob (jsTrim input) with
    | .error e => [.alertError (.decodeFailed e)]
    | .ok _ => [.createUrl 0, .openTab popupAllowed, .revoke 0 2000]

/-- Event trace of the proxy-tab variant of part_000 and part_003:
reject empty input; open a blank tab synchronously and alert if the
environment refuses; write the loading placeholder; then strip,
validate, and convert by fetching the rebuilt data URI, whose
forgiving-base64 processing is the atob model; on any failure close
the proxy tab and alert; on success create the blob URL, point the
proxy tab at it, and schedule one revocation 60000 ms later. -/
def proxyTabHandler (input : List Char) (popupAllowed : Bool) : List Ev :=
  if jsTrim input = [] then [.alertError .emptyInput]
  else if popupAllowed = false then
    [.openTab false, .alertError .surfaceUnavailable]
  else
    .openTab true :: .writeLoading ::
      (let t := stripDataUriHeader (jsTrim input)
       if validBase64Format t = false then
         [.closeTab, .alertError (.decodeFailed .invalidEncoding)]
       else
         match atob t with
         | none => [.closeTab, .alertError .fetchFailed]
         | some bin =>
           if bin.length = 0 then
             [.closeTab, .alertError (.decodeFailed .emptyDocument)]
           else [.createUrl 0, .navigateTab 0, .revoke 0 60000])

/-! ### Character and string helper lemmas -/

theorem char_toNat_ofNat (n : Nat) (h : n < 55296) : (Char.ofNat n).toNat = n := by
  have hv : n.isValidChar := Or.inl h
  rw [Char.ofNat, dif_pos hv]
  rfl

theorem char_ne_of_toNat_ne {c d : Char} (h : c.toNat ≠ d.toNat) : c ≠ d := by
  intro he
  exact h (by rw [he])

theorem strStartsWith_iff (s p : List Char) :
    strStartsWith s p = true ↔ ∃ t, s = p ++ t := by
  induction p generalizing s with
  | nil =>
    cases s <;> simp [strStartsWith]
  | cons b p ih =>
    cases s with
    | nil => simp [strStartsWith]
    | cons a s =>
      simp only [strStartsWith, Bool.and_eq_true, decide_eq_true_eq, ih,
        List.cons_append, List.cons.injEq]
      constructor
      · rintro ⟨rfl, t, rfl⟩
        exact ⟨t, rfl, rfl⟩
      · rintro ⟨t, rfl, rfl⟩
        exact ⟨rfl, t, rfl⟩

theorem strStartsWith_false_iff (s p : List Char) :
    strStartsWith s p = false ↔ ¬ ∃ t, s = p ++ t := by
  rw [← strStartsWith_iff]
  cases strStartsWith s p <;> simp

theorem mem_of_strStartsWith {s p : List Char} (h : strStartsWith s p = true)
    {c : Char} (hc : c ∈ p) : c ∈ s := by
  obtain ⟨t, rfl⟩ := (strStartsWith_iff s p).mp h
  exact List.mem_append_left t hc

theorem indexOfChar_eq_none {c : Char} {s : List Char} (h : c ∉ s) :
    indexOfChar c s = none := by
  induction s with
  | nil => rfl
  | cons a rest ih =>
    simp only [List.mem_cons, not_or] at h
    have hne : ¬ a = c := fun he => h.1 he.symm
    simp [indexOfChar, hne, ih h.2]

theorem indexOfChar_append (pre rest : List Char) (c : Char) (h : c ∉ pre) :
    indexOfChar c (pre ++ c :: rest) = some pre.length := by
  induction pre with
  | nil => simp [indexOfChar]
  | cons a pre ih =>
    simp only [List.mem_cons, not_or] at h
    have hne : ¬ a = c := fun he => h.1 he.symm
    simp [indexOfChar, hne, ih h.2]

theorem dropWhile_append_all (p : Char → Bool) (l1 l2 : List Char)
    (h : ∀ c ∈ l1, p c = true) :
    List.dropWhile p (l1 ++ l2) = List.dropWhile p l2 := by
  induction l1 with
  | nil => rfl
  | cons a l1 ih =>
    simp only [List.cons_append, List.dropWhile_cons, h a (by simp)]
    exact ih (fun c hc => h c (by simp [hc]))

theorem filter_all_true (p : Char → Bool) (l : List Char)
    (h : ∀ c ∈ l, p c = true) : l.filter p = l :=
  List.filter_eq_self.mpr h

/-! ### Lemmas about the Base64 alphabet tables -/

theorem base64Value_base64Char (v : Nat) (hv : v < 64) :
    base64Value (base64Char v) = some v := by
  unfold base64Char
  split_ifs with h1 h2 h3 h4
  · rw [base64Value, char_toNat_ofNat _ (by omega)]
    split_ifs <;> (try simp) <;> omega
  · rw [base64Value, char_toNat_ofNat _ (by omega)]
    split_ifs <;> (try simp) <;> omega
  · rw [base64Value, char_toNat_ofNat _ (by omega)]
    split_ifs <;> (try simp) <;> omega
  · have : v = 62 := h4
    subst this
    decide
  · have : v = 63 := by omega
    subst this
    decide

theorem base64Value_base64Char_isSome (v : Nat) :
    (base64Value (base64Char v)).isSome = true := by
  unfold base64Char
  split_ifs with h1 h2 h3 h4
  · rw [base64Value, char_toNat_ofNat _ (by omega)]
    split_ifs <;> simp_all
    omega
  · rw [base64Value, char_toNat_ofNat _ (by omega)]
    split_ifs <;> simp_all
    omega
  · rw [base64Value, char_toNat_ofNat _ (by omega)]
    split_ifs <;> simp_all
    omega
  · decide
  · decide

theorem base64Char_toNat (v : Nat) :
    43 ≤ (base64Char v).toNat ∧ (base64Char v).toNat ≤ 122 ∧
      (base64Char v).toNat ≠ 61 := by
  unfold base64Char
  split_ifs with h1 h2 h3 h4
  · rw [char_toNat_ofNat _ (by omega)]
    omega
  · rw [char_toNat_ofNat _ (by omega)]
    omega
  · rw [char_toNat_ofNat _ (by omega)]
    omega
  · decide
  · decide

theorem base64Char_ne_pad (v : Nat) : base64Char v ≠ '=' :=
  char_ne_of_toNat_ne (base64Char_toNat v).2.2

theorem base64Char_not_ws (v : Nat) : isAsciiWhitespace (base64Char v) = false := by
  have h := (base64Char_toNat v).1
  simp only [isAsciiWhitespace, Bool.or_eq_false_iff, decide_eq_false_iff_not]
  omega

/-! ### Structure of the Base64 encoding -/

theorem encode_eq_sextets (l : List Nat) :
    base64Encode l = (bytesToSextets l).map base64Char ++ padOf l := by
  induction l using bytesToSextets.induct with
  | case1 a b c rest ih => simp [base64Encode, bytesToSextets, padOf, ih]
  | case2 a b => simp [base64Encode, bytesToSextets, padOf]
  | case3 a => simp [base64Encode, bytesToSextets, padOf]
  | case4 => simp [base64Encode, bytesToSextets, padOf]

theorem padOf_cases (l : List Nat) :
    padOf l = [] ∨ padOf l = ['='] ∨ padOf l = ['=', '='] := by
  induction l using bytesToSextets.induct with
  | case1 a b c rest ih => simpa [padOf] using ih
  | case2 a b => simp [padOf]
  | case3 a => simp [padOf]
  | case4 => simp [padOf]

theorem sextets_lt (l : List Nat) (h : ∀ x ∈ l, x < 256) :
    ∀ v ∈ bytesToSextets l, v < 64 := by
  induction l using bytesToSextets.induct with
  | case1 a b c rest ih =>
    have ha := h a (by simp)
    have hb := h b (by simp)
    have hc := h c (by simp)
    intro v hv
    simp only [bytesToSextets, List.mem_cons] at hv
    rcases hv with rfl | rfl | rfl | rfl | hv
    · omega
    · omega
    · omega
    · omega
    · exact ih (fun x hx => h x (by simp [hx])) v hv
  | case2 a b =>
    have ha := h a (by simp)
    have hb := h b (by simp)
    intro v hv
    simp only [bytesToSextets, List.mem_cons] at hv
    rcases hv with rfl | rfl | rfl | hv
    · omega
    · omega
    · omega
    · simp at hv
  | case3 a =>
    have ha := h a (by simp)
    intro v hv
    simp only [bytesToSextets, List.mem_cons] at hv
    rcases hv with rfl | rfl | hv
    · omega
    · omega
    · simp at hv
  | case4 => simp [bytesToSextets]

theorem sextetsToBytes_bytesToSextets (l : List Nat) (h : ∀ x ∈ l, x < 256) :
    sextetsToBytes (bytesToSextets l) = l := by
  induction l using bytesToSextets.induct with
  | case1 a b c rest ih =>
    have ha := h a (by simp)
    have hb := h b (by simp)
    have hc := h c (by simp)
    have := ih (fun x hx => h x (by simp [hx]))
    simp only [bytesToSextets, sextetsToBytes, this, List.cons.injEq]
    refine ⟨by omega, by omega, by omega, trivial⟩
  | case2 a b =>
    have ha := h a (by simp)
    have hb := h b (by simp)
    simp only [bytesToSextets, sextetsToBytes, List.cons.injEq]
    refine ⟨by omega, by omega, trivial⟩
  | case3 a =>
    have ha := h a (by simp)
    simp only [bytesToSextets, sextetsToBytes, List.cons.injEq]
    refine ⟨by omega, trivial⟩
  | case4 => rfl

theorem sextets_length_mod (l : List Nat) :
    (bytesToSextets l).length % 4 ≠ 1 := by
  induction l using bytesToSextets.induct with
  | case1 a b c rest ih => simp only [bytesToSextets, List.length_cons]; omega
  | case2 a b => simp [bytesToSextets]
  | case3 a => simp [bytesToSextets]
  | case4 => simp [bytesToSextets]

theorem encode_length_mod (l : List Nat) :
    (base64Encode l).length % 4 = 0 := by
  induction l using bytesToSextets.induct with
  | case1 a b c rest ih => simp only [base64Encode, List.length_cons]; omega
  | case2 a b => simp [base64Encode]
  | case3 a => simp [base64Encode]
  | case4 => simp [base64Encode]

theorem mapBase64Values_map (l : List Nat) (h : ∀ v ∈ l, v < 64) :
    mapBase64Values (l.map base64Char) = some l := by
  induction l with
  | nil => rfl
  | cons v l ih =>
    simp only [List.map_cons, mapBase64Values,
      base64Value_base64Char v (h v (by simp)),
      ih (fun x hx => h x (by simp [hx]))]

theorem encode_char_class (l : List Nat) :
    ∀ c ∈ base64Encode l, (base64Value c).isSome = true ∨ c = '=' := by
  intro c hc
  rw [encode_eq_sextets] at hc
  rcases List.mem_append.mp hc with hm | hp
  · obtain ⟨v, _, rfl⟩ := List.mem_map.mp hm
    exact Or.inl (base64Value_base64Char_isSome v)
  · rcases padOf_cases l with he | he | he <;> rw [he] at hp <;> simp_all

theorem encode_no_ws (l : List Nat) :
    ∀ c ∈ base64Encode l, isAsciiWhitespace c = false := by
  intro c hc
  rcases encode_char_class l c hc with hs | rfl
  · have h2 : 43 ≤ c.toNat := by
      simp only [base64Value] at hs
      split_ifs at hs <;> (try simp at hs) <;> omega
    simp only [isAsciiWhitespace, Bool.or_eq_false_iff, decide_eq_false_iff_not]
    omega
  · decide

/-! ### Behavior of atob on encoded input -/

theorem dropPadRev_no_pad (l : List Char) (h : ∀ c ∈ l, c ≠ '=') :
    dropPadRev l = l := by
  match l with
  | [] => rfl
  | [c1] => simp [dropPadRev, h c1 (by simp)]
  | c1 :: c2 :: rest => simp [dropPadRev, h c1 (by simp)]

theorem dropPadRev_one (t : List Char) (h1 : ∀ c ∈ t, c ≠ '=') :
    dropPadRev ('=' :: t) = t := by
  match t with
  | [] => rfl
  | c2 :: rest => simp [dropPadRev, h1 c2 (by simp)]

theorem dropPadRev_two (t : List Char) : dropPadRev ('=' :: '=' :: t) = t := by
  simp [dropPadRev]

theorem dropPadChars_append (m pad : List Char)
    (hm : ∀ c ∈ m, c ≠ '=')
    (hp : pad = [] ∨ pad = ['='] ∨ pad = ['=', '=']) :
    dropPadChars (m ++ pad) = m := by
  have hr : ∀ c ∈ m.reverse, c ≠ '=' := fun c hc => hm c (List.mem_reverse.mp hc)
  rcases hp with rfl | rfl | rfl
  · rw [dropPadChars, List.append_nil, dropPadRev_no_pad _ hr, List.reverse_reverse]
  · rw [dropPadChars, List.reverse_append]
    show (dropPadRev ('=' :: m.reverse)).reverse = m
    rw [dropPadRev_one _ hr, List.reverse_reverse]
  · rw [dropPadChars, List.reverse_append]
    show (dropPadRev ('=' :: '=' :: m.reverse)).reverse = m
    rw [dropPadRev_two, List.reverse_reverse]

theorem atob_encode (l : List Nat) (h : ∀ x ∈ l, x < 256) :
    atob (base64Encode l) = some (l.map Char.ofNat) := by
  have hfilter : (base64Encode l).filter (fun c => !(isAsciiWhitespace c)) =
      base64Encode l :=
    filter_all_true _ _ (fun c hc => by rw [encode_no_ws l c hc]; rfl)
  have hm : ∀ c ∈ (bytesToSextets l).map base64Char, c ≠ '=' := by
    intro c hc
    obtain ⟨v, _, rfl⟩ := List.mem_map.mp hc
    exact base64Char_ne_pad v
  have hdrop : dropPadChars (base64Encode l) = (bytesToSextets l).map base64Char := by
    rw [encode_eq_sextets]
    exact dropPadChars_append _ _ hm (padOf_cases l)
  have hlen : ¬ ((bytesToSextets l).map base64Char).length % 4 = 1 := by
    rw [List.length_map]
    exact sextets_length_mod l
  have hvals := mapBase64Values_map (bytesToSextets l) (sextets_lt l h)
  have hbytes := sextetsToBytes_bytesToSextets l h
  simp only [atob, hfilter, encode_length_mod l, if_pos, hdrop, if_neg hlen, hvals,
    hbytes]

theorem bytesViaFrom_map_ofNat (l : List Nat) (h : ∀ x ∈ l, x < 256) :
    bytesViaFrom (l.map Char.ofNat) = l := by
  induction l with
  | nil => rfl
  | cons a t ih =>
    have ha := h a (by simp)
    have ht := ih (fun x hx => h x (by simp [hx]))
    simp only [bytesViaFrom, List.map_cons, List.cons.injEq] at ht ⊢
    exact ⟨by rw [char_toNat_ofNat a (by omega)]; omega, ht⟩

theorem valid_encode (l : List Nat) : validBase64Format (base64Encode l) = true := by
  unfold validBase64Format
  rw [encode_eq_sextets]
  rw [dropWhile_append_all _ _ _
    (fun c hc => by
      obtain ⟨v, _, rfl⟩ := List.mem_map.mp hc
      exact base64Value_base64Char_isSome v)]
  rcases padOf_cases l with he | he | he <;> rw [he] <;> rfl

theorem colon_not_in_encode (l : List Nat) : ':' ∉ base64Encode l := by
  intro hc
  rcases encode_char_class l _ hc with hs | he
  · exact absurd hs (by decide)
  · exact absurd he (by decide)

theorem strip_encode (l : List Nat) :
    stripDataUriHeader (base64Encode l) = base64Encode l := by
  have h1 : strStartsWith (base64Encode l) headerLong = false := by
    rw [strStartsWith_false_iff]
    rintro ⟨t, he⟩
    apply colon_not_in_encode l
    rw [he]
    exact List.mem_append_left t (by decide)
  have h2 : strStartsWith (base64Encode l) headerShort = false := by
    rw [strStartsWith_false_iff]
    rintro ⟨t, he⟩
    apply colon_not_in_encode l
    rw [he]
    exact List.mem_append_left t (by decide)
  simp [stripDataUriHeader, h1, h2]

theorem convert_eq_payload (s : List Char) :
    convertBase64ToPdfBlob s = decodePayload (stripDataUriHeader s) := rfl

theorem decode_encode (b : List Nat) (hb : ∀ x ∈ b, x < 256) (hne : b ≠ []) :
    convertBase64ToPdfBlob (base64Encode b) = .ok ⟨b, pdfMime⟩ := by
  rw [convert_eq_payload, strip_encode]
  have hlen : ¬ b.length = 0 := fun h0 => hne (List.length_eq_zero.mp h0)
  simp only [decodePayload, valid_encode, atob_encode b hb,
    bytesViaFrom_map_ofNat b hb, Bool.true_eq_false, if_false, if_neg hlen]

/-! ### The two byte conversions and the pipeline copies -/

theorem bytesViaLoop_eq_bytesViaFrom (s : List Char) :
    bytesViaLoop s = bytesViaFrom s := by
  induction s with
  | nil => rfl
  | cons a t ih =>
    have step : (fun i => charCodeAt (a :: t) (Nat.succ i) % 256) =
        (fun i => charCodeAt t i % 256) := rfl
    simp only [bytesViaLoop, bytesViaFrom, List.length_cons, List.range_succ_eq_map,
      List.map_cons, List.map_map, Function.comp_def] at ih ⊢
    simp only [step]
    rw [ih]
    rfl

theorem pipelines_agree (s : List Char) :
    decodePipelineLoop s = convertBase64ToPdfBlob s := by
  simp only [decodePipelineLoop, convertBase64ToPdfBlob, bytesViaLoop_eq_bytesViaFrom]

/-! ### Characterization of the validation regex -/

theorem validBase64Format_cases (s : List Char) :
    validBase64Format s = true ↔
      (s.dropWhile (fun c => (base64Value c).isSome) = [] ∨
       s.dropWhile (fun c => (base64Value c).isSome) = ['='] ∨
       s.dropWhile (fun c => (base64Value c).isSome) = ['=', '=']) := by
  simp only [validBase64Format, Bool.or_eq_true, beq_iff_eq, or_assoc]

theorem mem_takeWhile_pred (p : Char → Bool) (l : List Char) :
    ∀ c ∈ l.takeWhile p, p c = true := by
  induction l with
  | nil => simp
  | cons a t ih =>
    rw [List.takeWhile_cons]
    by_cases hp : p a = true
    · simp only [hp, if_true, List.mem_cons]
      rintro c (rfl | hc)
      · exact hp
      · exact ih c hc
    · simp [hp]

theorem validBase64Format_iff (s : List Char) :
    validBase64Format s = true ↔
      ∃ body pads, s = body ++ pads ∧
        (∀ c ∈ body, (base64Value c).isSome = true) ∧
        (pads = [] ∨ pads = ['='] ∨ pads = ['=', '=']) := by
  have hpad : (base64Value '=').isSome = false := by decide
  constructor
  · intro hv
    exact ⟨s.takeWhile (fun c => (base64Value c).isSome),
      s.dropWhile (fun c => (base64Value c).isSome),
      (List.takeWhile_append_dropWhile (fun c => (base64Value c).isSome) s).symm,
      mem_takeWhile_pred _ s,
      (validBase64Format_cases s).mp hv⟩
  · rintro ⟨body, pads, rfl, hbody, hp⟩
    rw [validBase64Format_cases, dropWhile_append_all _ _ _ hbody]
    rcases hp with rfl | rfl | rfl <;>
      simp [List.dropWhile_cons, List.dropWhile_nil, hpad]

theorem not_valid_of_mem (t : List Char) (c : Char) (hc : c ∈ t)
    (hv : (base64Value c).isSome = false) (hne : c ≠ '=') :
    validBase64Format t = false := by
  rw [← Bool.not_eq_true, validBase64Format_iff]
  rintro ⟨body, pads, rfl, hbody, hp⟩
  rcases List.mem_append.mp hc with hb | hpd
  · rw [hbody c hb] at hv
    cases hv
  · rcases hp with rfl | rfl | rfl <;> simp_all

/-! ### Stage lemmas for the decode pipeline -/

theorem decodePayload_invalid (t : List Char) (h : validBase64Format t = false) :
    decodePayload t = .error .invalidEncoding := by
  simp [decodePayload, h]

theorem decodePayload_atob_fails (t : List Char) (h1 : validBase64Format t = true)
    (h2 : atob t = none) : decodePayload t = .error .invalidCharacter := by
  simp [decodePayload, h1, h2]

theorem decodePayload_empty (t : List Char) (h1 : validBase64Format t = true)
    (h2 : atob t = some []) : decodePayload t = .error .emptyDocument := by
  simp [decodePayload, h1, h2, bytesViaFrom]

/-! ### Stripping rule lemmas -/

theorem strip_long (s : List Char) (h : strStartsWith s headerLong = true) :
    stripDataUriHeader s = s.drop headerLong.length := by
  simp [stripDataUriHeader, h]

theorem strip_comma (s pre rest : List Char)
    (h1 : strStartsWith s headerLong = false)
    (h2 : strStartsWith s headerShort = true)
    (he : s = pre ++ ',' :: rest) (hpre : ',' ∉ pre) :
    stripDataUriHeader s = rest := by
  subst he
  simp only [stripDataUriHeader, h1, h2, Bool.false_eq_true, if_false, if_true,
    indexOfChar_append pre rest ',' hpre]
  have hsplit : pre ++ ',' :: rest = (pre ++ [',']) ++ rest := by simp
  have hl : pre.length + 1 = (pre ++ [',']).length := by simp
  rw [hsplit, hl, List.drop_left]

theorem strip_other (s : List Char) (h1 : strStartsWith s headerLong = false)
    (h2 : strStartsWith s headerShort = false ∨ ',' ∉ s) :
    stripDataUriHeader s = s := by
  rcases h2 with h2 | h2
  · simp [stripDataUriHeader, h1, h2]
  · simp [stripDataUriHeader, h1, indexOfChar_eq_none h2]

/-! ### Small evaluation facts used by the handler proofs -/

theorem convert_nil_eq : convertBase64ToPdfBlob [] = .error .emptyDocument := by
  decide

/-! ### Claim theorems -/

/-- C1: for every input string the decoder strips the data-URI header
before alphabet validation: the exact application/pdf header is removed
when present; otherwise a data: input containing a comma loses
everything through the first comma; otherwise the input is unchanged;
and the validation and decoding stages run on the stripped string. -/
theorem claim1_strip_before_validation (s : List Char) :
    (strStartsWith s headerLong = true ↔ ∃ t, s = headerLong ++ t) ∧
    (strStartsWith s headerLong = true →
      stripDataUriHeader s = s.drop headerLong.length) ∧
    (strStartsWith s headerLong = false → strStartsWith s headerShort = true →
      ∀ pre rest, s = pre ++ ',' :: rest → ',' ∉ pre →
        stripDataUriHeader s = rest) ∧
    (strStartsWith s headerLong = false →
      (strStartsWith s headerShort = false ∨ ',' ∉ s) →
        stripDataUriHeader s = s) ∧
    convertBase64ToPdfBlob s = decodePayload (stripDataUriHeader s) :=
  ⟨strStartsWith_iff s headerLong,
   strip_long s,
   fun h1 h2 pre rest he hp => strip_comma s pre rest h1 h2 he hp,
   strip_other s,
   convert_eq_payload s⟩

theorem claim1_witness :
    stripDataUriHeader "data:text/plain;base64,QQ==".toList = "QQ==".toList ∧
    stripDataUriHeader "hello".toList = "hello".toList :=
  ⟨(claim1_strip_before_validation ("data:text/plain;base64,QQ==".toList)).2.2.1
      (by decide) (by decide) ("data:text/plain;base64".toList) ("QQ==".toList)
      (by decide) (by decide),
   (claim1_strip_before_validation ("hello".toList)).2.2.2.1
      (by decide) (Or.inr (by decide))⟩

/-- C2 counterexample: the empty byte sequence encodes to the empty
string, and the decoder rejects that as an empty document instead of
reproducing the empty byte sequence, so the round trip fails at the
empty input. -/
theorem claim2_counterexample :
    base64Encode [] = [] ∧
    convertBase64ToPdfBlob (base64Encode []) = .error .emptyDocument ∧
    convertBase64ToPdfBlob (base64Encode []) ≠ .ok ⟨[], pdfMime⟩ :=
  ⟨rfl, by decide, by decide⟩

/-- C2 amended: for every nonempty byte sequence, decoding the standard
Base64 encoding of it through the pipeline returns exactly those bytes,
tagged application/pdf. -/
theorem claim2_roundtrip (b : List Nat) (hb : ∀ x ∈ b, x < 256) (hne : b ≠ []) :
    convertBase64ToPdfBlob (base64Encode b) = .ok ⟨b, pdfMime⟩ :=
  decode_encode b hb hne

theorem claim2_witness :
    convertBase64ToPdfBlob (base64Encode [37, 80, 68, 70]) =
      .ok ⟨[37, 80, 68, 70], pdfMime⟩ :=
  claim2_roundtrip [37, 80, 68, 70] (by decide) (by decide)

/-- C3: when the stripped text is not a run of alphabet characters
followed by at most two trailing pads, the pipeline fails with the
invalid encoding error; in particular any stripped text containing the
URL-safe characters dash or underscore fails that way, and on such
inputs the components handler surfaces only the alert, creating no
resource. -/
theorem claim3_invalid_encoding (s input : List Char) :
    (validBase64Format (stripDataUriHeader s) = true ↔
      ∃ body pads, stripDataUriHeader s = body ++ pads ∧
        (∀ c ∈ body, (base64Value c).isSome = true) ∧
        (pads = [] ∨ pads = ['='] ∨ pads = ['=', '='])) ∧
    (validBase64Format (stripDataUriHeader s) = false →
      convertBase64ToPdfBlob s = .error .invalidEncoding) ∧
    ('-' ∈ stripDataUriHeader s ∨ '_' ∈ stripDataUriHeader s →
      convertBase64ToPdfBlob s = .error .invalidEncoding) ∧
    (∀ p, jsTrim input ≠ [] →
      validBase64Format (stripDataUriHeader (jsTrim input)) = false →
      componentsHandler input p =
        [.alertError (.decodeFailed .invalidEncoding)]) := by
  have hinv : validBase64Format (stripDataUriHeader s) = false →
      convertBase64ToPdfBlob s = .error .invalidEncoding := fun h => by
    rw [convert_eq_payload]
    exact decodePayload_invalid _ h
  refine ⟨validBase64Format_iff _, hinv, ?_, ?_⟩
  · rintro (hc | hc)
    · exact hinv (not_valid_of_mem _ '-' hc (by decide) (by decide))
    · exact hinv (not_valid_of_mem _ '_' hc (by decide) (by decide))
  · intro p hne hv
    have hconv : convertBase64ToPdfBlob (jsTrim input) = .error .invalidEncoding := by
      rw [convert_eq_payload]
      exact decodePayload_invalid _ hv
    simp [componentsHandler, hne, pipelines_agree, hconv]

theorem claim3_witness :
    convertBase64ToPdfBlob "ab-c".toList = .error .invalidEncoding ∧
    componentsHandler "ab_c".toList true =
      [.alertError (.decodeFailed .invalidEncoding)] :=
  ⟨(claim3_invalid_encoding ("ab-c".toList) []).2.2.1 (Or.inl (by decide)),
   (claim3_invalid_encoding [] ("ab_c".toList)).2.2.2 true (by decide) (by decide)⟩

/-- C4: an input that survives stripping and validation but whose
decoding yields zero bytes fails with the empty document error rather
than returning an empty document. -/
theorem claim4_empty_document (s : List Char)
    (h1 : validBase64Format (stripDataUriHeader s) = true)
    (h2 : atob (stripDataUriHeader s) = some []) :
    convertBase64ToPdfBlob s = .error .emptyDocument := by
  rw [convert_eq_payload]
  exact decodePayload_empty _ h1 h2

theorem claim4_witness :
    convertBase64ToPdfBlob "data:application/pdf;base64,".toList =
      .error .emptyDocument :=
  claim4_empty_document ("data:application/pdf;base64,".toList)
    (by decide) (by decide)

/-- C5: an empty or whitespace-only input makes every handler stop with
the empty input alert as its only event: no tab is opened, no handle is
created, and nothing else happens before that point. -/
theorem claim5_empty_input (input : List Char) (p : Bool)
    (h : jsTrim input = []) :
    componentsHandler input p = [.alertError .emptyInput] ∧
    variantAHandler input p = [.alertError .emptyInput] ∧
    proxyTabHandler input p = [.alertError .emptyInput] := by
  refine ⟨?_, ?_, ?_⟩ <;>
    simp [componentsHandler, variantAHandler, proxyTabHandler, h]

theorem claim5_witness :
    componentsHandler "   ".toList true = [.alertError .emptyInput] ∧
    proxyTabHandler [] true = [.alertError .emptyInput] :=
  ⟨(claim5_empty_input ("   ".toList) true (by decide)).1,
   (claim5_empty_input [] true (by decide)).2.2⟩

/-- C6: in the proxy-tab variant, whenever the work done after the
blank tab was opened fails (validation, the fetch conversion, or the
empty check), the trace shows the opened tab, then its closing, an
alert surfacing the error, and no handle creation anywhere. -/
theorem claim6_proxy_failure (input : List Char) (hne : jsTrim input ≠ [])
    (hfail : validBase64Format (stripDataUriHeader (jsTrim input)) = false ∨
      atob (stripDataUriHeader (jsTrim input)) = none ∨
      atob (stripDataUriHeader (jsTrim input)) = some []) :
    Ev.openTab true ∈ proxyTabHandler input true ∧
    Ev.closeTab ∈ proxyTabHandler input true ∧
    (proxyTabHandler input true).filter isAlertEv ≠ [] ∧
    (proxyTabHandler input true).filter isCreateUrlEv = [] := by
  by_cases hv : validBase64Format (stripDataUriHeader (jsTrim input)) = false
  · simp [proxyTabHandler, hne, hv, isAlertEv, isCreateUrlEv]
  · rw [Bool.not_eq_false] at hv
    rcases hfail with h | h | h
    · rw [h] at hv
      cases hv
    · simp [proxyTabHandler, hne, hv, h, isAlertEv, isCreateUrlEv]
    · simp [proxyTabHandler, hne, hv, h, isAlertEv, isCreateUrlEv]

theorem claim6_witness :
    Ev.closeTab ∈ proxyTabHandler "!!!".toList true ∧
    (proxyTabHandler "!!!".toList true).filter isCreateUrlEv = [] := by
  have h := claim6_proxy_failure ("!!!".toList) (by decide) (Or.inl (by decide))
  exact ⟨h.2.1, h.2.2.2⟩

/-- C7 counterexample: the components copy is a direct-new-tab delivery
that succeeds on this input and creates a viewing handle, yet its trace
contains no revocation: that copy never schedules a cleanup timer, so
the handle is retained indefinitely. -/
theorem claim7_counterexample :
    componentsHandler "AAAA".toList true = [.createUrl 0, .openTab true] ∧
    (componentsHandler "AAAA".toList true).filter isRevokeEv = [] := by
  refine ⟨by decide, by decide⟩

/-- C7 amended: in the part_001 direct-new-tab implementation every
successful delivery creates one handle and revokes it exactly once via
the timer scheduled with the fixed 2000 ms grace period, and every
failed delivery creates no handle and revokes nothing; the components
copy of the same variant instead retains its handle forever. -/
theorem claim7_variantA_revoke_once (input : List Char) (p : Bool) :
    (∀ b, convertBase64ToPdfBlob (jsTrim input) = .ok b →
      variantAHandler input p = [.createUrl 0, .openTab p, .revoke 0 2000] ∧
      ((variantAHandler input p).filter isRevokeEv).length = 1) ∧
    (∀ e, convertBase64ToPdfBlob (jsTrim input) = .error e →
      (variantAHandler input p).filter isRevokeEv = [] ∧
      (variantAHandler input p).filter isCreateUrlEv = []) := by
  constructor
  · intro b hb
    have hne : jsTrim input ≠ [] := by
      intro h0
      rw [h0, convert_nil_eq] at hb
      exact Except.noConfusion hb
    simp [variantAHandler, hne, hb, isRevokeEv]
  · intro e he
    by_cases h0 : jsTrim input = []
    · simp [variantAHandler, h0, isRevokeEv, isCreateUrlEv]
    · simp [variantAHandler, h0, he, isRevokeEv, isCreateUrlEv]

theorem claim7_witness :
    variantAHandler "AAAA".toList true =
      [.createUrl 0, .openTab true, .revoke 0 2000] :=
  ((claim7_variantA_revoke_once ("AAAA".toList) true).1
    ⟨[0, 0, 0], pdfMime⟩ (by decide)).1

/-- C8 counterexample: with the popup blocked, the direct-new-tab
variant surfaces no error, and a viewing handle does exist on that
path: the handle was created before the blocked open and its revoke
timer is still scheduled. -/
theorem claim8_counterexample :
    variantAHandler "AAAB".toList false =
      [.createUrl 0, .openTab false, .revoke 0 2000] ∧
    (variantAHandler "AAAB".toList false).filter isAlertEv = [] ∧
    (variantAHandler "AAAB".toList false).filter isCreateUrlEv ≠ [] := by
  refine ⟨by decide, by decide, by decide⟩

/-- C8 amended: in Variant A the environment refusal is not detected:
the result of the window.open call is ignored, so on a successful
decode with the popup blocked the trace still creates the handle first,
attempts the open, schedules the revoke, and surfaces no alert; only
the proxy-tab variant checks the open result and surfaces the
popup-blocked error with no handle created. -/
theorem claim8_popup_block_undetected (input : List Char) (b : Blob)
    (h : convertBase64ToPdfBlob (jsTrim input) = .ok b) :
    variantAHandler input false =
      [.createUrl 0, .openTab false, .revoke 0 2000] ∧
    (variantAHandler input false).filter isAlertEv = [] ∧
    proxyTabHandler input false =
      [.openTab false, .alertError .surfaceUnavailable] := by
  have hne : jsTrim input ≠ [] := by
    intro h0
    rw [h0, convert_nil_eq] at h
    exact Except.noConfusion h
  refine ⟨?_, ?_, ?_⟩
  · simp [variantAHandler, hne, h]
  · simp [variantAHandler, hne, h, isAlertEv]
  · simp [proxyTabHandler, hne]

theorem claim8_witness :
    (variantAHandler "AAAB".toList false).filter isAlertEv = [] :=
  (claim8_popup_block_undetected ("AAAB".toList) ⟨[0, 0, 1], pdfMime⟩
    (by decide)).2.1

/-- C9: the duplicated decoders agree extensionally: on binary strings,
whose character codes are below 256, the index-loop conversion and the
Uint8Array.from conversion produce identical byte lists, and the loop
pipeline copy and the from pipeline copy return identical results on
every input: the same bytes on success and the same error on failure. -/
theorem claim9_copies_agree (bin s : List Char)
    (hb : ∀ c ∈ bin, c.toNat < 256) :
    bytesViaLoop bin = bytesViaFrom bin ∧
    decodePipelineLoop s = convertBase64ToPdfBlob s :=
  ⟨bytesViaLoop_eq_bytesViaFrom bin, pipelines_agree s⟩

theorem claim9_witness :
    bytesViaLoop "ab".toList = bytesViaFrom "ab".toList ∧
    decodePipelineLoop "QQ==".toList = convertBase64ToPdfBlob "QQ==".toList :=
  claim9_copies_agree ("ab".toList) ("QQ==".toList) (by decide)

/-- C10: alphabet validation is not sufficient for decoding to succeed:
the single alphabet character A, whose length is 1 mod 4, and the bare
pad both pass the regex, yet atob fails on them, so the pipeline
returns the native invalid character error, which is neither the
invalid encoding error nor the empty document error. -/
theorem claim10_regex_not_sufficient :
    validBase64Format "A".toList = true ∧
    convertBase64ToPdfBlob "A".toList = .error .invalidCharacter ∧
    validBase64Format "=".toList = true ∧
    convertBase64ToPdfBlob "=".toList = .error .invalidCharacter ∧
    DecodeError.invalidCharacter ≠ DecodeError.invalidEncoding ∧
    DecodeError.invalidCharacter ≠ DecodeError.emptyDocument := by
  refine ⟨by decide, by decide, by decide, by decide, by decide, by decide⟩
